import Mathlib

/-!
Shallow embedding of the core accounting and backtesting logic of the
`autoTrading` repository, together with theorems settling the spec's claims.

Monetary amounts and prices are modelled as exact rationals (`ℚ`), share
quantities as integers (`ℤ`), trading dates as natural numbers, and
Python dicts as insertion-ordered association lists.
-/

namespace AutoTrading

/-- The exception classes of `src/utils/exceptions.py` that the embedded code
can raise, plus the Python builtin `ValueError` used by the engines' run
guards, plus a `specConfigurationError` constructor. The last one is modelled
from the spec: spec §7 names a `ConfigurationError` raised when no strategy or
no data is attached, but `src/utils/exceptions.py` defines no such class and
nothing in `src/` raises one; the constructor exists only so that the spec's
statement can be compared with what the code actually raises. -/
inductive PyErr where
  | insufficientFunds : String → PyErr
  | invalidOrder : String → PyErr
  | valueError : String → PyErr
  | specConfigurationError : String → PyErr
deriving DecidableEq, Repr

/-- Whether an error is the spec's `ConfigurationError` (no such class exists
in the source; see `PyErr.specConfigurationError`). -/
def PyErr.isConfigurationError : PyErr → Bool
  | .specConfigurationError _ => true
  | _ => false

def invalidQtyMsg : String := "quantity must be positive"

def insufficientMsg : String := "insufficient funds"

def notHeldMsg : String := "ticker not held"

def insufficientQtyMsg : String := "held quantity below order quantity"

def strategyNotSetMsg : String := "strategy not set"

def dataNotSetMsg : String := "data not set"

/-- `Position` dataclass of `src/src/backtest/portfolio.py`. -/
structure Position where
  ticker : String
  quantity : ℤ
  avg_price : ℚ
  current_price : ℚ
  first_buy_date : ℕ
deriving DecidableEq, Repr

/-- `Position.market_value`. -/
def Position.market_value (pos : Position) : ℚ :=
  pos.quantity * pos.current_price

/-- `Position.cost`. -/
def Position.cost (pos : Position) : ℚ :=
  pos.quantity * pos.avg_price

/-- `Trade` dataclass of `src/src/backtest/portfolio.py`; `action` is the
literal string `"BUY"` or `"SELL"`. -/
structure Trade where
  date : ℕ
  ticker : String
  action : String
  quantity : ℤ
  price : ℚ
  commission : ℚ
  amount : ℚ
deriving DecidableEq, Repr

/-- One entry of `Portfolio.equity_curve` as appended by `Portfolio.snapshot`. -/
structure Snapshot where
  date : ℕ
  cash : ℚ
  market_value : ℚ
  total_value : ℚ
  num_positions : ℕ
deriving DecidableEq, Repr

/-- `Portfolio` dataclass state: the `positions` dict becomes an
insertion-ordered association list. -/
structure Portfolio where
  initial_cash : ℚ
  commission_rate : ℚ
  cash : ℚ
  positions : List (String × Position)
  trades : List Trade
  equity_curve : List Snapshot
deriving DecidableEq, Repr

/-- `Portfolio(initial_cash, commission_rate)` followed by `__post_init__`,
which sets `cash = initial_cash`; the dict/lists start empty. The Python
default commission rate is `0.0014`. -/
def Portfolio.make (initial_cash : ℚ) (commission_rate : ℚ := 14/10000) : Portfolio :=
  ⟨initial_cash, commission_rate, initial_cash, [], [], []⟩

/-- Dict lookup `self.positions.get(ticker)` / `ticker in self.positions`. -/
def posLookup (l : List (String × Position)) (t : String) : Option Position :=
  (l.find? (fun e => e.1 == t)).map (fun e => e.2)

/-- Dict value assignment for a key already present (keeps insertion order,
as Python dicts do). -/
def posReplace (l : List (String × Position)) (t : String) (pos : Position) :
    List (String × Position) :=
  l.map (fun e => if e.1 == t then (e.1, pos) else e)

/-- `del self.positions[ticker]`. -/
def posRemove (l : List (String × Position)) (t : String) : List (String × Position) :=
  l.filter (fun e => e.1 != t)

/-- `Portfolio._calculate_commission`. -/
def Portfolio.calculateCommission (p : Portfolio) (amount : ℚ) : ℚ :=
  amount * p.commission_rate

/-- `Portfolio.update_price`. -/
def Portfolio.update_price (p : Portfolio) (ticker : String) (price : ℚ) : Portfolio :=
  match posLookup p.positions ticker with
  | some pos =>
    { p with positions := posReplace p.positions ticker ({ pos with current_price := price }) }
  | none => p

/-- `Portfolio.receive_dividend`: no-op when the ticker is not held; credits
cash with `quantity × dividend_per_share` only when that total is positive. -/
def Portfolio.receive_dividend (p : Portfolio) (ticker : String) (dividend_per_share : ℚ)
    (_date : ℕ) : Portfolio :=
  match posLookup p.positions ticker with
  | none => p
  | some pos =>
    if 0 < (pos.quantity : ℚ) * dividend_per_share then
      { p with cash := p.cash + (pos.quantity : ℚ) * dividend_per_share }
    else p

/-- The positions-dict effect of a buy fill: merge into an existing position
(quantity accumulates, average cost becomes the weighted average of the old
cost and the new amount) or append a fresh position. -/
def buyPositions (l : List (String × Position)) (ticker : String) (quantity : ℤ)
    (price : ℚ) (date : ℕ) : List (String × Position) :=
  match posLookup l ticker with
  | some pos =>
    let merged : Position :=
      { pos with avg_price := (pos.cost + (quantity : ℚ) * price) /
                    ((pos.quantity + quantity : ℤ) : ℚ),
                 quantity := pos.quantity + quantity }
    posReplace l ticker merged
  | none => l ++ [(ticker, Position.mk ticker quantity price price date)]

/-- The mutation part of `Portfolio.buy` (everything after its validation and
funds check): debit cash by `amount + commission`, create or merge the
position, append the BUY trade. -/
def Portfolio.applyBuyFill (p : Portfolio) (ticker : String) (quantity : ℤ) (price : ℚ)
    (date : ℕ) : Portfolio :=
  { p with
    cash := p.cash - ((quantity : ℚ) * price + p.calculateCommission ((quantity : ℚ) * price)),
    positions := buyPositions p.positions ticker quantity price date,
    trades := p.trades ++ [Trade.mk date ticker "BUY" quantity price
      (p.calculateCommission ((quantity : ℚ) * price)) ((quantity : ℚ) * price)] }

/-- `Portfolio.buy`: validates `quantity > 0`, computes
`amount = quantity*price` and `commission = amount*rate`, raises
`InsufficientFundsError` when `cash < amount + commission`, otherwise fills.
(The Python `isinstance(quantity, int)` check cannot fire here because
`quantity : ℤ`.) The returned portfolio is the observable state after the
call, whether or not an error was raised. -/
def Portfolio.buy (p : Portfolio) (ticker : String) (quantity : ℤ) (price : ℚ)
    (date : ℕ) : Portfolio × Option PyErr :=
  if quantity ≤ 0 then (p, some (PyErr.invalidOrder invalidQtyMsg))
  else if p.cash < (quantity : ℚ) * price + p.calculateCommission ((quantity : ℚ) * price) then
    (p, some (PyErr.insufficientFunds insufficientMsg))
  else (p.applyBuyFill ticker quantity price date, none)

/-- The positions-dict effect of a sell fill against the held position `pos`:
decrement its quantity and delete the entry when the quantity reaches exactly
zero. -/
def sellPositions (l : List (String × Position)) (ticker : String) (pos : Position)
    (quantity : ℤ) : List (String × Position) :=
  if pos.quantity - quantity = 0 then posRemove l ticker
  else posReplace l ticker ({ pos with quantity := pos.quantity - quantity })

/-- The mutation part of `Portfolio.sell` for an effective (possibly clamped)
`quantity`: credit cash with `amount − commission`, decrement or delete the
position, append the SELL trade. -/
def Portfolio.applySellFill (p : Portfolio) (ticker : String) (pos : Position)
    (quantity : ℤ) (price : ℚ) (date : ℕ) : Portfolio :=
  { p with
    cash := p.cash + ((quantity : ℚ) * price - p.calculateCommission ((quantity : ℚ) * price)),
    positions := sellPositions p.positions ticker pos quantity,
    trades := p.trades ++ [Trade.mk date ticker "SELL" quantity price
      (p.calculateCommission ((quantity : ℚ) * price)) ((quantity : ℚ) * price)] }

/-- `Portfolio.sell`: raises `InvalidOrderError` when the ticker is not held
or `quantity ≤ 0`; when the request exceeds the held quantity it raises in
strict mode (`allow_partial = false`) and clamps to the held quantity in the
default permissive mode. The returned portfolio is the observable state after
the call. -/
def Portfolio.sell (p : Portfolio) (ticker : String) (quantity : ℤ) (price : ℚ)
    (date : ℕ) ( allow_partial : Bool := true) : Portfolio × Option PyErr :=
  match posLookup p.positions ticker with
  | none => (p, some (PyErr.invalidOrder notHeldMsg))
  | some pos =>
    if quantity ≤ 0 then (p, some (PyErr.invalidOrder invalidQtyMsg))
    else if pos.quantity < quantity ∧ allow_partial = false then
      (p, some (PyErr.invalidOrder insufficientQtyMsg))
    else (p.applySellFill ticker pos (min quantity pos.quantity) price date, none)

/-- `Portfolio.total_market_value`. -/
def Portfolio.total_market_value (p : Portfolio) : ℚ :=
  (p.positions.map (fun e => e.2.market_value)).sum

/-- `Portfolio.total_value`. -/
def Portfolio.total_value (p : Portfolio) : ℚ :=
  p.cash + p.total_market_value

/-- `Portfolio.get_position`. -/
def Portfolio.get_position (p : Portfolio) (ticker : String) : Option Position :=
  posLookup p.positions ticker

/-- `Portfolio.snapshot`. -/
def Portfolio.snapshot (p : Portfolio) (date : ℕ) : Portfolio :=
  { p with equity_curve := p.equity_curve ++
      [Snapshot.mk date p.cash p.total_market_value p.total_value p.positions.length] }

/-- Python `int(x)` applied to a float/rational: truncation toward zero. -/
def pyInt (q : ℚ) : ℤ :=
  if q < 0 then -⌊-q⌋ else ⌊q⌋

/-- The parameters of `ShannonStrategy` (`src/src/strategy/shannon.py`) that
`check_banding_rebalance` and `calculate_position_size` read, with the
constructor's defaults. -/
structure ShannonStrategy where
  stock_pct : ℚ := 1/2
  stock_ticker : Option String := none
  bond_ticker : Option String := none
  band_threshold : ℚ := 1/10
deriving DecidableEq, Repr

/-- `self.use_bond = self.bond_ticker is not None`. -/
def ShannonStrategy.use_bond (s : ShannonStrategy) : Bool :=
  s.bond_ticker.isSome

/-- `ShannonStrategy.check_banding_rebalance`: false when `portfolio_value`
is zero, otherwise whether `|current_stock_value/portfolio_value − stock_pct|`
reaches the banding threshold. (The Python `price`, `current_quantity`,
`cash` and `current_bond_value` arguments are unused by its body.) -/
def ShannonStrategy.check_banding_rebalance (s : ShannonStrategy)
    (portfolio_value current_stock_value : ℚ) : Bool :=
  if portfolio_value = 0 then false
  else decide (s.band_threshold ≤ |current_stock_value / portfolio_value - s.stock_pct|)

/-- The `is_stock` test inside `ShannonStrategy.calculate_position_size`:
`ticker == self.stock_ticker or (self.stock_ticker is None and ticker is not
None and ticker != self.bond_ticker)`. -/
def ShannonStrategy.isStockTicker (s : ShannonStrategy) (ticker : Option String) : Bool :=
  ticker == s.stock_ticker ||
    (s.stock_ticker == none && ticker != none && ticker != s.bond_ticker)

/-- The positive-delta cash clamp shared by the `signal == 2` and
`signal == 3` branches of `calculate_position_size`: when the required cash
for a positive `quantity_diff` exceeds the available cash, shrink the delta
to what the available cash can fund (integer floor of affordable shares). -/
def ShannonStrategy.clampBuyDelta (s : ShannonStrategy) (is_stock : Bool)
    (quantity_diff : ℤ) (price cash current_bond_value commission_rate : ℚ) : ℤ :=
  if 0 < quantity_diff then
    let required_cash : ℚ := (quantity_diff : ℚ) * price * (1 + commission_rate)
    let available_cash : ℚ :=
      if is_stock then cash
      else if s.use_bond then cash + current_bond_value else cash
    if available_cash < required_cash then
      min quantity_diff (pyInt (available_cash / (price * (1 + commission_rate))))
    else quantity_diff
  else quantity_diff

/-- The signal dispatch of `calculate_position_size` after the per-role
(`is_stock`) target computation: `signal = 1` sizes a commission-adjusted
full-target entry, `signal = 2` returns the (cash-clamped) delta to target,
`signal = 3` does so only when the banding check fires, everything else
holds. -/
def ShannonStrategy.sizeFromTarget (s : ShannonStrategy) (is_stock : Bool)
    (portfolio_value price signal : ℚ) (current_quantity : ℤ)
    (cash current_bond_value commission_rate target_value : ℚ)
    (target_quantity : ℤ) (check_value : ℚ) : ℤ :=
  if signal = 1 then pyInt (target_value * (1 - commission_rate) / price)
  else if signal = 2 then
    let quantity_diff := target_quantity - current_quantity
    if quantity_diff ≠ 0 then
      s.clampBuyDelta is_stock quantity_diff price cash current_bond_value commission_rate
    else 0
  else if signal = 3 then
    if s.check_banding_rebalance portfolio_value check_value then
      let quantity_diff := target_quantity - current_quantity
      if quantity_diff ≠ 0 then
        s.clampBuyDelta is_stock quantity_diff price cash current_bond_value commission_rate
      else 0
    else 0
  else 0

/-- `ShannonStrategy.calculate_position_size`; the Python `**kwargs` become
the explicit trailing arguments with the `.get` defaults the engine always
overrides. `current_stock_value` is the kwarg of that name, read only in the
bond branch. Returns a signed share delta (positive = buy, negative = sell,
zero = hold). -/
def ShannonStrategy.calculate_position_size (s : ShannonStrategy)
    (portfolio_value price signal : ℚ) (current_quantity : ℤ)
    (cash current_bond_value commission_rate : ℚ) (ticker : Option String)
    (current_stock_value : ℚ) : ℤ :=
  if signal = 0 then 0
  else if s.isStockTicker ticker then
    let target_stock_value := portfolio_value * s.stock_pct
    s.sizeFromTarget true portfolio_value price signal current_quantity cash
      current_bond_value commission_rate target_stock_value
      (pyInt (target_stock_value / price)) ((current_quantity : ℚ) * price)
  else if s.use_bond = false then 0
  else
    let target_bond_value := portfolio_value * (1 - s.stock_pct)
    s.sizeFromTarget false portfolio_value price signal current_quantity cash
      current_bond_value commission_rate target_bond_value
      (pyInt (target_bond_value / price)) current_stock_value

/-- One entry of the engine's `sell_orders` / `buy_orders` lists:
`(ticker, quantity, price)` with `quantity` already made positive. -/
structure Order where
  ticker : String
  quantity : ℤ
  price : ℚ
deriving DecidableEq, Repr

/-- The engine's "먼저 모든 매도 실행" loop: execute every queued sell in
order; each order runs in its own try/except, so a failed order leaves the
ledger as it was and the loop continues. -/
def execSells (date : ℕ) : List Order → Portfolio → Portfolio
  | [], p => p
  | o :: rest, p => execSells date rest (p.sell o.ticker o.quantity o.price date true).1

/-- The engine's "그 다음 모든 매수 실행" loop, after all sells. -/
def execBuys (date : ℕ) : List Order → Portfolio → Portfolio
  | [], p => p
  | o :: rest, p => execBuys date rest (p.buy o.ticker o.quantity o.price date).1

/-- The engine's per-ticker collection loop over `tickers_to_process`
(multi_asset_engine.py lines 357-416): for each ticker, ask the Shannon
strategy for a signed delta from the un-mutated bar-start portfolio and
append it to `buy_orders` (positive) or `sell_orders` (negative, negated).
`stock_value` and `bond_value` are the bar-start sleeve values the engine
computed before the loop. -/
def shannonCollect (s : ShannonStrategy) (commission_rate : ℚ) (p0 : Portfolio)
    (stock_value bond_value signal : ℚ) :
    List (String × ℚ) → List Order → List Order → List Order × List Order
  | [], sell_orders, buy_orders => (sell_orders, buy_orders)
  | (t, price) :: rest, sell_orders, buy_orders =>
    let portfolio_value := p0.total_value
    let current_quantity : ℤ :=
      match p0.get_position t with
      | some pos => pos.quantity
      | none => 0
    let current_bond_val : ℚ := if s.use_bond then bond_value else p0.cash
    let quantity := s.calculate_position_size portfolio_value price signal
      current_quantity p0.cash current_bond_val commission_rate (some t) stock_value
    if 0 < quantity then
      shannonCollect s commission_rate p0 stock_value bond_value signal rest
        sell_orders (buy_orders ++ [Order.mk t quantity price])
    else if quantity < 0 then
      shannonCollect s commission_rate p0 stock_value bond_value signal rest
        (sell_orders ++ [Order.mk t (-quantity) price]) buy_orders
    else
      shannonCollect s commission_rate p0 stock_value bond_value signal rest
        sell_orders buy_orders

/-- The stock half of the initial-entry branch (engine lines 277-295): when
the stock has a positive price and the strategy sizes a positive initial
quantity, buy it (a failed buy is caught and skipped). -/
def shannonStockLeg (s : ShannonStrategy) (commission_rate : ℚ) (p0 : Portfolio)
    (st : String) (stock_price signal : ℚ) (date : ℕ) : Portfolio :=
  if 0 < stock_price ∧ 0 < s.calculate_position_size p0.total_value stock_price signal 0
      p0.cash 0 commission_rate (some st) 0 then
    (p0.buy st (s.calculate_position_size p0.total_value stock_price signal 0
      p0.cash 0 commission_rate (some st) 0) stock_price date).1
  else p0

/-- The bond half of the initial-entry branch (engine lines 297-319), run on
the portfolio `p1` left by the stock leg. -/
def shannonBondLeg (s : ShannonStrategy) (commission_rate : ℚ) (p1 : Portfolio)
    (bt : String) (bond_price signal csv : ℚ) (date : ℕ) : Portfolio :=
  if 0 < bond_price ∧ 0 < s.calculate_position_size p1.total_value bond_price signal 0
      p1.cash 0 commission_rate (some bt) csv then
    (p1.buy bt (s.calculate_position_size p1.total_value bond_price signal 0
      p1.cash 0 commission_rate (some bt) csv) bond_price date).1
  else p1

/-- The initial-entry branch of the Shannon bar (engine lines 276-319), taken
when both sleeves are empty: buy the stock sleeve first, recompute the
portfolio value, then buy the bond sleeve (skipped in the cash version). -/
def shannonInitialEntry (s : ShannonStrategy) (commission_rate : ℚ) (p0 : Portfolio)
    (st : String) (stock_price bond_price signal : ℚ) (stock_value : ℚ)
    (date : ℕ) : Portfolio :=
  match s.bond_ticker with
  | some bt =>
    shannonBondLeg s commission_rate
      (shannonStockLeg s commission_rate p0 st stock_price signal date) bt bond_price signal
      (if 0 < stock_price then stock_value else 0) date
  | none => shannonStockLeg s commission_rate p0 st stock_price signal date

/-- One Shannon rebalancing bar of `MultiAssetBacktestEngine.run` (the
`stock_ticker`/`bond_ticker`-or-cash branch, engine lines 244-437), for a bar
on which both sleeves have a price: read the bar-start sleeve values, either
do the initial entry or collect the per-ticker deltas, then execute all queued
sells before any queued buy. -/
def shannonBarStep (s : ShannonStrategy) (commission_rate : ℚ) (p0 : Portfolio)
    (stock_price bond_price signal : ℚ) (date : ℕ) : Portfolio :=
  match s.stock_ticker with
  | none => p0
  | some st =>
    let stock_quantity : ℤ :=
      match p0.get_position st with
      | some pos => pos.quantity
      | none => 0
    let stock_value : ℚ := (stock_quantity : ℚ) * stock_price
    let bond_quantity : ℤ :=
      match s.bond_ticker with
      | some bt =>
        match p0.get_position bt with
        | some pos => pos.quantity
        | none => 0
      | none => 0
    let bond_value : ℚ :=
      match s.bond_ticker with
      | some bt =>
        match p0.get_position bt with
        | some pos => (pos.quantity : ℚ) * bond_price
        | none => 0
      | none => p0.cash
    if stock_quantity = 0 ∧ bond_quantity = 0 then
      shannonInitialEntry s commission_rate p0 st stock_price bond_price signal
        stock_value date
    else
      let tickers_to_process : List (String × ℚ) :=
        (st, stock_price) ::
          (match s.bond_ticker with
           | some bt => [(bt, bond_price)]
           | none => [])
      let orders := shannonCollect s commission_rate p0 stock_value bond_value signal
        tickers_to_process [] []
      execBuys date orders.2 (execSells date orders.1 p0)

/-- `MultiAssetBacktestEngine` state: the attached strategy (`None` until
`set_strategy`), the per-ticker daily close series (`data_dict`, empty until
`set_data`), and the portfolio; the engine's commission rate is the
portfolio's. -/
structure MultiAssetBacktestEngine where
  strategy : Option ShannonStrategy
  data_dict : List (String × List (ℕ × ℚ))
  portfolio : Portfolio
deriving DecidableEq, Repr

/-- Close price of a ticker's series on a given date, if that date has a bar. -/
def tickerClose (data : List (String × List (ℕ × ℚ))) (t : String) (date : ℕ) : Option ℚ :=
  match data.find? (fun e => e.1 == t) with
  | some e => ((e.2.find? (fun b => b.1 == date)).map (fun b => b.2))
  | none => none

/-- The union of all tickers' trading days, deduplicated and sorted — the
engine's unified calendar. -/
def MultiAssetBacktestEngine.allDates (e : MultiAssetBacktestEngine) : List ℕ :=
  (((e.data_dict.map (fun td => td.2.map (fun b => b.1))).flatten).dedup).insertionSort (· ≤ ·)

/-- One trading day of the multi-asset loop: update the mark-to-market price
of every ticker that has a bar today, run the Shannon rebalancing bar when
the strategy's sleeves both have prices (banding-check signal 3), then
snapshot. -/
def MultiAssetBacktestEngine.dayStep (s : ShannonStrategy)
    (data : List (String × List (ℕ × ℚ))) (p : Portfolio) (date : ℕ) : Portfolio :=
  let p1 := data.foldl (fun acc td =>
    match tickerClose data td.1 date with
    | some price => acc.update_price td.1 price
    | none => acc) p
  let p2 :=
    match s.stock_ticker with
    | none => p1
    | some st =>
      match tickerClose data st date with
      | none => p1
      | some sp =>
        match s.bond_ticker with
        | some bt =>
          match tickerClose data bt date with
          | none => p1
          | some bp => shannonBarStep s p1.commission_rate p1 sp bp 3 date
        | none => shannonBarStep s p1.commission_rate p1 sp 0 3 date
  p2.snapshot date

/-- `MultiAssetBacktestEngine.run`: the two fail-fast guards come first — a
missing strategy, then missing data, each raising the Python builtin
`ValueError` (engine lines 99-103) — and only then does the day loop touch the
ledger. The returned engine carries the observable state after the call. -/
def MultiAssetBacktestEngine.run (e : MultiAssetBacktestEngine) :
    MultiAssetBacktestEngine × Except PyErr (List Snapshot) :=
  match e.strategy with
  | none => (e, Except.error (PyErr.valueError strategyNotSetMsg))
  | some s =>
    if e.data_dict = [] then (e, Except.error (PyErr.valueError dataNotSetMsg))
    else
      let p := e.allDates.foldl (fun acc d => MultiAssetBacktestEngine.dayStep s e.data_dict acc d)
        e.portfolio
      ({ e with portfolio := p }, Except.ok p.equity_curve)

/-- `values.expanding().max()`: the running maximum of a series. -/
def expandingMaxFrom (m : ℚ) : List ℚ → List ℚ
  | [] => []
  | v :: vs => max m v :: expandingMaxFrom (max m v) vs

/-- Running maximum of a whole series. -/
def expandingMax : List ℚ → List ℚ
  | [] => []
  | v :: vs => v :: expandingMaxFrom v vs

/-- `Series.idxmin` on an integer-indexed series: the position of the first
occurrence of the minimum (0 for an empty series). -/
def idxminAux : List ℚ → ℕ → ℕ → ℚ → ℕ
  | [], _, best, _ => best
  | v :: vs, i, best, bestv =>
    if v < bestv then idxminAux vs (i + 1) i v else idxminAux vs (i + 1) best bestv

/-- First position of the minimum of a series. -/
def idxminQ : List ℚ → ℕ
  | [] => 0
  | v :: vs => idxminAux vs 1 0 v

/-- `Series.idxmax`: first position of the maximum. -/
def idxmaxAux : List ℚ → ℕ → ℕ → ℚ → ℕ
  | [], _, best, _ => best
  | v :: vs, i, best, bestv =>
    if bestv < v then idxmaxAux vs (i + 1) i v else idxmaxAux vs (i + 1) best bestv

/-- First position of the maximum of a series. -/
def idxmaxQ : List ℚ → ℕ
  | [] => 0
  | v :: vs => idxmaxAux vs 1 0 v

/-- `Series.min` (0 for an empty series, unreachable in context). -/
def listMinQ : List ℚ → ℚ
  | [] => 0
  | v :: vs => vs.foldl min v

/-- The dictionary returned by `calculate_max_drawdown`
(`src/src/utils/metrics.py`); dates are the integer positions of the series. -/
structure MddInfo where
  mdd : ℚ
  mdd_start : Option ℕ
  mdd_end : Option ℕ
  peak_value : ℚ
  trough_value : ℚ
  recovery_date : Option ℕ
deriving DecidableEq, Repr

/-- `calculate_max_drawdown(values)`: drawdown at each index is
`(value − running_max)/running_max × 100`; `mdd` is its minimum, `mdd_end`
the first index attaining it, `mdd_start` the first index attaining the
running maximum up to the trough, and the recovery date the first index from
the trough on whose value reaches the peak value again (searched only when
the trough is not the last bar). Series shorter than 2 report a zero
drawdown. -/
def calculate_max_drawdown (values : List ℚ) : MddInfo :=
  if values.length < 2 then
    { mdd := 0, mdd_start := none, mdd_end := none,
      peak_value := values.headD 0, trough_value := values.headD 0,
      recovery_date := none }
  else
    let cumulative_max := expandingMax values
    let drawdown := List.zipWith (fun v m => (v - m) / m * 100) values cumulative_max
    let max_dd_idx := idxminQ drawdown
    let mdd := listMinQ drawdown
    let peak_idx := idxmaxQ (cumulative_max.take (max_dd_idx + 1))
    let peak_value := values.getD peak_idx 0
    let trough_value := values.getD max_dd_idx 0
    let recovery_date : Option ℕ :=
      if max_dd_idx < values.length - 1 then
        match (values.drop max_dd_idx).findIdx? (fun v => decide (peak_value ≤ v)) with
        | some j => some (max_dd_idx + j)
        | none => none
      else none
    { mdd := mdd, mdd_start := some peak_idx, mdd_end := some max_dd_idx,
      peak_value := peak_value, trough_value := trough_value,
      recovery_date := recovery_date }

/-! ### Concrete scenarios used by the claims -/

/-- The round-trip scenario's fresh portfolio: `initial_cash = 100000`,
`commission_rate = 0.001`. -/
def roundtripStart : Portfolio := Portfolio.make 100000 (1/1000)

/-- The round-trip portfolio after `buy(ticker, 100, 150, d)`. -/
def roundtripAfterBuy : Portfolio := (roundtripStart.buy "TQQQ" 100 150 0).1

/-- The round-trip portfolio after the subsequent `sell(ticker, 100, 165, d')`. -/
def roundtripAfterSell : Portfolio := (roundtripAfterBuy.sell "TQQQ" 100 165 1 true).1

/-- C1 (counterexample): in the round-trip scenario the cash after the buy is
`100000 − 100×150×1.001 = 84985`, not the `84850` the claim states (the
spec's own formula evaluates to 84985; its printed result is an arithmetic
slip), so the claim as stated is false. -/
theorem roundtrip_spec_numbers_false :
    roundtripAfterBuy.cash = 84985 ∧ ¬ roundtripAfterBuy.cash = 84850 := by
  norm_num +decide [roundtripAfterBuy, roundtripStart, Portfolio.make, Portfolio.buy,
    Portfolio.applyBuyFill, buyPositions, Portfolio.calculateCommission, posLookup]

/-- C1 (amended): the round-trip scenario with the code's actual arithmetic —
the buy succeeds and leaves cash `84985` and a position of 100 shares at
average cost 150; selling all 100 at 165 succeeds, credits
`100×165×0.999 = 16483.5`, leaves cash `101468.5`, removes the position, and
`total_value = 101468.5`. -/
theorem roundtrip_scenario :
    (roundtripStart.buy "TQQQ" 100 150 0).2 = none ∧
    roundtripAfterBuy.cash = 84985 ∧
    (roundtripAfterBuy.get_position "TQQQ").map Position.quantity = some 100 ∧
    (roundtripAfterBuy.get_position "TQQQ").map Position.avg_price = some 150 ∧
    (roundtripAfterBuy.sell "TQQQ" 100 165 1 true).2 = none ∧
    roundtripAfterSell.cash = 202937/2 ∧
    roundtripAfterSell.get_position "TQQQ" = none ∧
    roundtripAfterSell.total_value = 202937/2 := by
  norm_num +decide [roundtripAfterSell, roundtripAfterBuy, roundtripStart, Portfolio.make,
    Portfolio.buy, Portfolio.applyBuyFill, Portfolio.sell, Portfolio.applySellFill,
    buyPositions, sellPositions,
    Portfolio.calculateCommission, Portfolio.get_position, Portfolio.total_value,
    Portfolio.total_market_value, Position.market_value, Position.cost,
    posLookup, posReplace, posRemove]

/-- C8: on the equity series `[100, 120, 90, 110, 130]`,
`calculate_max_drawdown` reports a maximum drawdown of −25% with the peak at
the 120 entry (index 1), the trough at the 90 entry (index 2), and recovery
at the first value ≥ 120 after the trough, the 130 entry (index 4). -/
theorem drawdown_concrete_series :
    calculate_max_drawdown [100, 120, 90, 110, 130] =
      { mdd := -25, mdd_start := some 1, mdd_end := some 2,
        peak_value := 120, trough_value := 90, recovery_date := some 4 } := by
  norm_num +decide [calculate_max_drawdown, expandingMax, expandingMaxFrom,
    idxminQ, idxminAux, idxmaxQ, idxmaxAux, listMinQ, List.zipWith, List.take,
    List.getD, List.headD, List.findIdx?, List.drop, List.foldl, List.length,
    MddInfo.mk.injEq]

/-! ### Toolkit lemmas about the ledger operations -/

theorem applyBuyFill_cash (p : Portfolio) (t : String) (q : ℤ) (pr : ℚ) (d : ℕ) :
    (p.applyBuyFill t q pr d).cash =
      p.cash - ((q : ℚ) * pr + p.calculateCommission ((q : ℚ) * pr)) := by
  rfl

theorem applyBuyFill_trades (p : Portfolio) (t : String) (q : ℤ) (pr : ℚ) (d : ℕ) :
    (p.applyBuyFill t q pr d).trades =
      p.trades ++ [Trade.mk d t "BUY" q pr (p.calculateCommission ((q : ℚ) * pr)) ((q : ℚ) * pr)] := by
  unfold Portfolio.applyBuyFill
  rcases posLookup p.positions t with _ | pos <;> rfl

theorem applySellFill_cash (p : Portfolio) (t : String) (pos : Position) (q : ℤ) (pr : ℚ)
    (d : ℕ) :
    (p.applySellFill t pos q pr d).cash =
      p.cash + ((q : ℚ) * pr - p.calculateCommission ((q : ℚ) * pr)) := by
  rfl

theorem applySellFill_trades (p : Portfolio) (t : String) (pos : Position) (q : ℤ) (pr : ℚ)
    (d : ℕ) :
    (p.applySellFill t pos q pr d).trades =
      p.trades ++ [Trade.mk d t "SELL" q pr (p.calculateCommission ((q : ℚ) * pr)) ((q : ℚ) * pr)] := by
  unfold Portfolio.applySellFill
  by_cases h : pos.quantity - q = 0 <;> simp [h]

/-- A buy that raises leaves the portfolio exactly as it was. -/
theorem buy_error_state (p : Portfolio) (t : String) (q : ℤ) (pr : ℚ) (d : ℕ)
    (p' : Portfolio) (e : PyErr) (h : p.buy t q pr d = (p', some e)) : p' = p := by
  unfold Portfolio.buy at h
  split at h
  · exact (Prod.mk.injEq _ _ _ _ ▸ h).1.symm
  · split at h
    · exact (Prod.mk.injEq _ _ _ _ ▸ h).1.symm
    · exact absurd (Prod.mk.injEq _ _ _ _ ▸ h).2 (by simp)

/-- A successful buy is the unguarded fill, and its guards did not fire. -/
theorem buy_success (p : Portfolio) (t : String) (q : ℤ) (pr : ℚ) (d : ℕ)
    (p' : Portfolio) (h : p.buy t q pr d = (p', none)) :
    0 < q ∧ ¬ p.cash < (q : ℚ) * pr + p.calculateCommission ((q : ℚ) * pr) ∧
      p' = p.applyBuyFill t q pr d := by
  unfold Portfolio.buy at h
  split at h
  · exact absurd (Prod.mk.injEq _ _ _ _ ▸ h).2 (by simp)
  · split at h
    · exact absurd (Prod.mk.injEq _ _ _ _ ▸ h).2 (by simp)
    · refine ⟨by omega, by assumption, (Prod.mk.injEq _ _ _ _ ▸ h).1.symm⟩

/-- A sell that raises leaves the portfolio exactly as it was. -/
theorem sell_error_state (p : Portfolio) (t : String) (q : ℤ) (pr : ℚ) (d : ℕ)
    (ap : Bool) (p' : Portfolio) (e : PyErr) (h : p.sell t q pr d ap = (p', some e)) :
    p' = p := by
  unfold Portfolio.sell at h
  split at h
  · exact (Prod.mk.injEq _ _ _ _ ▸ h).1.symm
  · split at h
    · exact (Prod.mk.injEq _ _ _ _ ▸ h).1.symm
    · split at h
      · exact (Prod.mk.injEq _ _ _ _ ▸ h).1.symm
      · exact absurd (Prod.mk.injEq _ _ _ _ ▸ h).2 (by simp)

/-- A successful sell is the unguarded fill of the clamped quantity, its
ticker was held, and its guards did not fire. -/
theorem sell_success (p : Portfolio) (t : String) (q : ℤ) (pr : ℚ) (d : ℕ)
    (ap : Bool) (p' : Portfolio) (h : p.sell t q pr d ap = (p', none)) :
    ∃ pos, posLookup p.positions t = some pos ∧ 0 < q ∧
      ¬ (pos.quantity < q ∧ ap = false) ∧
      p' = p.applySellFill t pos (min q pos.quantity) pr d := by
  unfold Portfolio.sell at h
  split at h
  · exact absurd (Prod.mk.injEq _ _ _ _ ▸ h).2 (by simp)
  · rename_i pos hpos
    split at h
    · exact absurd (Prod.mk.injEq _ _ _ _ ▸ h).2 (by simp)
    · split at h
      · exact absurd (Prod.mk.injEq _ _ _ _ ▸ h).2 (by simp)
      · exact ⟨pos, hpos, by omega, by assumption, (Prod.mk.injEq _ _ _ _ ▸ h).1.symm⟩

/-- C2: commission symmetry — every successful buy of `q` shares at price
`pr` with commission rate `r` decreases cash by exactly `q·pr·(1+r)`, and
every successful un-clamped sell (`q` at most the held quantity) increases
cash by exactly `q·pr·(1−r)`. -/
theorem commission_symmetry :
    (∀ (p : Portfolio) (t : String) (q : ℤ) (pr : ℚ) (d : ℕ) (p' : Portfolio),
      p.buy t q pr d = (p', none) →
      p'.cash = p.cash - (q : ℚ) * pr * (1 + p.commission_rate)) ∧
    (∀ (p : Portfolio) (t : String) (q : ℤ) (pr : ℚ) (d : ℕ) (ap : Bool)
      (pos : Position) (p' : Portfolio),
      posLookup p.positions t = some pos → q ≤ pos.quantity →
      p.sell t q pr d ap = (p', none) →
      p'.cash = p.cash + (q : ℚ) * pr * (1 - p.commission_rate)) := by
  constructor
  · intro p t q pr d p' h
    obtain ⟨-, -, rfl⟩ := buy_success p t q pr d p' h
    rw [applyBuyFill_cash, Portfolio.calculateCommission]
    ring
  · intro p t q pr d ap pos p' hpos hq h
    obtain ⟨pos', hpos', -, -, rfl⟩ := sell_success p t q pr d ap p' h
    rw [hpos] at hpos'
    obtain rfl : pos = pos' := by injection hpos'
    rw [min_eq_left hq, applySellFill_cash, Portfolio.calculateCommission]
    ring

/-- Witness for C2 at a concrete ledger: buying 10 shares at 50 with rate
0.001 debits `10×50×1.001 = 500.5`; selling 4 of 10 held shares at 60 credits
`4×60×0.999 = 239.76`. -/
theorem commission_symmetry_witness :
    ((Portfolio.make 1000 (1/1000)).buy "A" 10 50 0).1.cash = 1000 - 10 * 50 * (1 + 1/1000) ∧
    (Portfolio.sell (Portfolio.mk 1000 (1/1000) 1000 [("A", Position.mk "A" 10 50 50 0)] [] [])
        "A" 4 60 1 true).1.cash = 1000 + 4 * 60 * (1 - 1/1000) := by
  constructor
  · have h := commission_symmetry.1 (Portfolio.make 1000 (1/1000)) "A" 10 50 0
      ((Portfolio.make 1000 (1/1000)).buy "A" 10 50 0).1
      (by norm_num [Portfolio.make, Portfolio.buy, Portfolio.calculateCommission])
    simpa [Portfolio.make] using h
  · have h := commission_symmetry.2
      (Portfolio.mk 1000 (1/1000) 1000 [("A", Position.mk "A" 10 50 50 0)] [] [])
      "A" 4 60 1 true (Position.mk "A" 10 50 50 0)
      ((Portfolio.mk 1000 (1/1000) 1000 [("A", Position.mk "A" 10 50 50 0)] [] []).sell
        "A" 4 60 1 true).1
      (by norm_num +decide [posLookup]) (by norm_num)
      (by norm_num +decide [Portfolio.sell, posLookup])
    simpa using h

/-- C10: failed orders are atomic — whenever `buy` or `sell` raises, the
observable ledger state afterwards (cash, the holdings map, the trade log,
the equity curve) is exactly the state before the call. -/
theorem failed_orders_atomic :
    (∀ (p : Portfolio) (t : String) (q : ℤ) (pr : ℚ) (d : ℕ) (p' : Portfolio) (e : PyErr),
      p.buy t q pr d = (p', some e) → p' = p) ∧
    (∀ (p : Portfolio) (t : String) (q : ℤ) (pr : ℚ) (d : ℕ) (ap : Bool)
      (p' : Portfolio) (e : PyErr),
      p.sell t q pr d ap = (p', some e) → p' = p) :=
  ⟨buy_error_state, sell_error_state⟩

/-- Witness for C10: an underfunded buy (`10×100×1.001 > 50`) and a sell of an
unheld ticker both leave a concrete ledger unchanged. -/
theorem failed_orders_atomic_witness :
    ((Portfolio.make 50 (1/1000)).buy "A" 10 100 0).1 = Portfolio.make 50 (1/1000) ∧
    ((Portfolio.make 50 (1/1000)).sell "B" 1 5 0 true).1 = Portfolio.make 50 (1/1000) := by
  constructor
  · exact failed_orders_atomic.1 (Portfolio.make 50 (1/1000)) "A" 10 100 0
      ((Portfolio.make 50 (1/1000)).buy "A" 10 100 0).1
      (PyErr.insufficientFunds insufficientMsg)
      (by norm_num [Portfolio.make, Portfolio.buy, Portfolio.calculateCommission])
  · exact failed_orders_atomic.2 (Portfolio.make 50 (1/1000)) "B" 1 5 0 true
      ((Portfolio.make 50 (1/1000)).sell "B" 1 5 0 true).1
      (PyErr.invalidOrder notHeldMsg)
      (by norm_num +decide [Portfolio.make, Portfolio.sell, posLookup])

/-! ### Positions-map toolkit -/

/-- The C4 invariant: every position stored in the holdings map has a
strictly positive quantity. -/
def PositionsPos (p : Portfolio) : Prop :=
  ∀ e ∈ p.positions, 0 < e.2.quantity

theorem posLookup_mem (l : List (String × Position)) (t : String) (pos : Position)
    (h : posLookup l t = some pos) : ∃ k, (k, pos) ∈ l := by
  unfold posLookup at h
  cases hf : l.find? (fun e => e.1 == t) with
  | none => rw [hf] at h; exact absurd h (by simp)
  | some e =>
    rw [hf] at h
    obtain rfl : e.2 = pos := by simpa using h
    exact ⟨e.1, List.mem_of_find?_eq_some hf⟩

theorem mem_posReplace (l : List (String × Position)) (t : String) (pos : Position)
    (e : String × Position) (h : e ∈ posReplace l t pos) : e ∈ l ∨ e.2 = pos := by
  unfold posReplace at h
  obtain ⟨a, ha, hae⟩ := List.mem_map.1 h
  by_cases hc : a.1 == t
  · right; rw [← hae]; simp [hc]
  · left; rw [← hae]; simp [hc]; exact ha

theorem mem_posRemove (l : List (String × Position)) (t : String)
    (e : String × Position) (h : e ∈ posRemove l t) : e ∈ l :=
  List.mem_of_mem_filter h

theorem find?_posRemove (l : List (String × Position)) (t : String) :
    (posRemove l t).find? (fun e => e.1 == t) = none := by
  induction l with
  | nil => rfl
  | cons a as ih =>
    by_cases hc : a.1 == t
    · have hf : (a.1 != t) = false := by simp only [bne, hc, Bool.not_true]
      simp only [posRemove, List.filter_cons, hf, Bool.false_eq_true, if_false]
      exact ih
    · have hc' : (a.1 == t) = false := by simpa using hc
      have hf : (a.1 != t) = true := by simp [bne, hc']
      simp only [posRemove, List.filter_cons, hf, if_true]
      rw [List.find?_cons_of_neg _ (by simp [hc'])]
      exact ih

theorem posLookup_posRemove (l : List (String × Position)) (t : String) :
    posLookup (posRemove l t) t = none := by
  unfold posLookup
  rw [find?_posRemove]
  rfl

theorem positionsPos_buy (p : Portfolio) (t : String) (q : ℤ) (pr : ℚ) (d : ℕ)
    (hp : PositionsPos p) : PositionsPos ((p.buy t q pr d).1) := by
  unfold Portfolio.buy
  by_cases hq : q ≤ 0
  · rw [if_pos hq]; exact hp
  · rw [if_neg hq]
    by_cases hc : p.cash < (q : ℚ) * pr + p.calculateCommission ((q : ℚ) * pr)
    · rw [if_pos hc]; exact hp
    · rw [if_neg hc]
      intro e he
      replace he : e ∈ buyPositions p.positions t q pr d := he
      unfold buyPositions at he
      cases hl : posLookup p.positions t with
      | some pos =>
        rw [hl] at he
        rcases mem_posReplace _ _ _ _ he with h1 | h2
        · exact hp e h1
        · obtain ⟨k, hk⟩ := posLookup_mem _ _ _ hl
          have hk2 : 0 < pos.quantity := hp _ hk
          rw [h2]
          show 0 < pos.quantity + q
          omega
      | none =>
        rw [hl] at he
        rcases List.mem_append.1 he with h1 | h2
        · exact hp e h1
        · obtain rfl : e = (t, Position.mk t q pr pr d) := by simpa using h2
          show 0 < q
          omega

theorem positionsPos_sell (p : Portfolio) (t : String) (q : ℤ) (pr : ℚ) (d : ℕ)
    (ap : Bool) (hp : PositionsPos p) : PositionsPos ((p.sell t q pr d ap).1) := by
  unfold Portfolio.sell
  cases hl : posLookup p.positions t with
  | none => exact hp
  | some pos =>
    simp only
    by_cases hq : q ≤ 0
    · rw [if_pos hq]; exact hp
    · rw [if_neg hq]
      by_cases hs : pos.quantity < q ∧ ap = false
      · rw [if_pos hs]; exact hp
      · rw [if_neg hs]
        have hpos : 0 < pos.quantity := by
          obtain ⟨k, hk⟩ := posLookup_mem _ _ _ hl
          exact hp _ hk
        intro e he
        replace he : e ∈ sellPositions p.positions t pos (min q pos.quantity) := he
        unfold sellPositions at he
        split at he
        · exact hp e (mem_posRemove _ _ _ he)
        · rename_i hne
          rcases mem_posReplace _ _ _ _ he with h1 | h2
          · exact hp e h1
          · rw [h2]
            show 0 < pos.quantity - min q pos.quantity
            omega

theorem positionsPos_update_price (p : Portfolio) (t : String) (pr : ℚ)
    (hp : PositionsPos p) : PositionsPos (p.update_price t pr) := by
  unfold Portfolio.update_price
  cases hl : posLookup p.positions t with
  | none => exact hp
  | some pos =>
    intro e he
    rcases mem_posReplace _ _ _ _ he with h1 | h2
    · exact hp e h1
    · rw [h2]
      obtain ⟨k, hk⟩ := posLookup_mem _ _ _ hl
      exact hp _ hk

theorem receive_dividend_positions (p : Portfolio) (t : String) (dv : ℚ) (d : ℕ) :
    (p.receive_dividend t dv d).positions = p.positions := by
  unfold Portfolio.receive_dividend
  cases hl : posLookup p.positions t with
  | none => rfl
  | some pos =>
    simp only
    split <;> rfl

theorem sell_all_removes (p : Portfolio) (t : String) (pos : Position) (pr : ℚ) (d : ℕ)
    (ap : Bool) (hl : p.get_position t = some pos) (hq : 0 < pos.quantity) :
    (p.sell t pos.quantity pr d ap).2 = none ∧
    ((p.sell t pos.quantity pr d ap).1).get_position t = none := by
  unfold Portfolio.get_position at hl
  unfold Portfolio.sell
  simp only [hl]
  rw [if_neg (by omega), if_neg (by simp)]
  refine ⟨rfl, ?_⟩
  show posLookup (sellPositions p.positions t pos (min pos.quantity pos.quantity)) t = none
  rw [min_self]
  unfold sellPositions
  rw [if_pos (by omega)]
  exact posLookup_posRemove _ _

/-- The ledger reached by funding a portfolio with 100 at commission rate 3
(300%), buying one share at 20 (total cost `20×4 = 80 ≤ 100`), then selling
it at 20 (net proceeds `20×(1−3) = −40`). -/
def negCashPortfolio : Portfolio :=
  ((((Portfolio.make 100 3).buy "X" 1 20 0).1).sell "X" 1 20 1 true).1

/-- C3 (counterexample): with initial cash 100 ≥ 0 and only the non-negative
price 20, a buy followed by a full sell leaves `cash = −20 < 0`, because the
commission rate 3 makes the sell's net proceeds negative; the claim as
stated (with no bound on the commission rate) is false. -/
theorem nonnegative_cash_counterexample :
    (0:ℚ) ≤ (Portfolio.make 100 3).cash ∧
    negCashPortfolio.cash = -20 ∧ negCashPortfolio.cash < 0 := by
  norm_num +decide [negCashPortfolio, Portfolio.make, Portfolio.buy, Portfolio.sell,
    Portfolio.applyBuyFill, Portfolio.applySellFill, buyPositions, sellPositions,
    Portfolio.calculateCommission, posLookup, posReplace, posRemove]

/-- C3 (amended with `commission_rate ≤ 1`): cash stays non-negative across
every ledger operation — a buy never overdraws (its funds check guarantees
it), a sell only adds non-negative net proceeds when the price is
non-negative, the rate is at most 1 and held quantities are positive,
dividends only credit, price updates and snapshots leave cash untouched —
and a buy whose total cost exceeds available cash raises
`InsufficientFundsError` with the ledger unchanged rather than being clamped. -/
theorem nonnegative_cash :
    (∀ (p : Portfolio) (t : String) (q : ℤ) (pr : ℚ) (d : ℕ),
      0 ≤ p.cash → 0 ≤ ((p.buy t q pr d).1).cash) ∧
    (∀ (p : Portfolio) (t : String) (q : ℤ) (pr : ℚ) (d : ℕ) (ap : Bool),
      0 ≤ p.cash → 0 ≤ pr → p.commission_rate ≤ 1 → PositionsPos p →
      0 ≤ ((p.sell t q pr d ap).1).cash) ∧
    (∀ (p : Portfolio) (t : String) (dv : ℚ) (d : ℕ),
      0 ≤ p.cash → 0 ≤ (p.receive_dividend t dv d).cash) ∧
    (∀ (p : Portfolio) (t : String) (pr : ℚ), (p.update_price t pr).cash = p.cash) ∧
    (∀ (p : Portfolio) (d : ℕ), (p.snapshot d).cash = p.cash) ∧
    (∀ (p : Portfolio) (t : String) (q : ℤ) (pr : ℚ) (d : ℕ),
      0 < q → p.cash < (q : ℚ) * pr + p.calculateCommission ((q : ℚ) * pr) →
      p.buy t q pr d = (p, some (PyErr.insufficientFunds insufficientMsg))) := by
  refine ⟨?_, ?_, ?_, ?_, ?_, ?_⟩
  · intro p t q pr d hc
    unfold Portfolio.buy
    by_cases hq : q ≤ 0
    · rw [if_pos hq]; exact hc
    · rw [if_neg hq]
      by_cases hfund : p.cash < (q : ℚ) * pr + p.calculateCommission ((q : ℚ) * pr)
      · rw [if_pos hfund]; exact hc
      · rw [if_neg hfund]
        show 0 ≤ (p.applyBuyFill t q pr d).cash
        rw [applyBuyFill_cash]
        linarith [not_lt.1 hfund]
  · intro p t q pr d ap hc hpr hr hp
    unfold Portfolio.sell
    cases hl : posLookup p.positions t with
    | none => exact hc
    | some pos =>
      simp only
      by_cases hq : q ≤ 0
      · rw [if_pos hq]; exact hc
      · rw [if_neg hq]
        by_cases hs : pos.quantity < q ∧ ap = false
        · rw [if_pos hs]; exact hc
        · rw [if_neg hs]
          show 0 ≤ (p.applySellFill t pos (min q pos.quantity) pr d).cash
          rw [applySellFill_cash, Portfolio.calculateCommission]
          have hposq : 0 < pos.quantity := by
            obtain ⟨k, hk⟩ := posLookup_mem _ _ _ hl
            exact hp _ hk
          have hm : (0:ℚ) ≤ ((min q pos.quantity : ℤ) : ℚ) := by
            have : (0:ℤ) ≤ min q pos.quantity := by omega
            exact_mod_cast this
          have hnet : 0 ≤ ((min q pos.quantity : ℤ) : ℚ) * pr * (1 - p.commission_rate) :=
            mul_nonneg (mul_nonneg hm hpr) (by linarith)
          nlinarith [hnet]
  · intro p t dv d hc
    unfold Portfolio.receive_dividend
    cases hl : posLookup p.positions t with
    | none => exact hc
    | some pos =>
      simp only
      by_cases hdv : 0 < (pos.quantity : ℚ) * dv
      · rw [if_pos hdv]
        show 0 ≤ p.cash + (pos.quantity : ℚ) * dv
        linarith
      · rw [if_neg hdv]; exact hc
  · intro p t pr
    unfold Portfolio.update_price
    cases posLookup p.positions t <;> rfl
  · intro p d
    rfl
  · intro p t q pr d hq hfund
    unfold Portfolio.buy
    rw [if_neg (by omega), if_pos hfund]

/-- Witness for C3 at concrete ledgers: a funded buy, a clamped-rate sell, a
dividend, a price update, a snapshot, and an underfunded buy
(`1×1000×1.001 > 50`) all behave as the theorem states. -/
theorem nonnegative_cash_witness :
    (0:ℚ) ≤ (((Portfolio.make 100 (1/1000)).buy "A" 1 10 0).1).cash ∧
    (0:ℚ) ≤ ((Portfolio.sell (Portfolio.mk 100 (1/1000) 100
      [("A", Position.mk "A" 5 10 10 0)] [] []) "A" 5 12 1 true).1).cash ∧
    (0:ℚ) ≤ ((Portfolio.make 100 (1/1000)).receive_dividend "A" 2 0).cash ∧
    ((Portfolio.make 100 (1/1000)).update_price "A" 7).cash = (Portfolio.make 100 (1/1000)).cash ∧
    ((Portfolio.make 100 (1/1000)).snapshot 0).cash = (Portfolio.make 100 (1/1000)).cash ∧
    (Portfolio.make 50 (1/1000)).buy "A" 1 1000 0 =
      (Portfolio.make 50 (1/1000), some (PyErr.insufficientFunds insufficientMsg)) := by
  refine ⟨?_, ?_, ?_, ?_, ?_, ?_⟩
  · exact nonnegative_cash.1 (Portfolio.make 100 (1/1000)) "A" 1 10 0
      (by norm_num [Portfolio.make])
  · exact nonnegative_cash.2.1 (Portfolio.mk 100 (1/1000) 100
      [("A", Position.mk "A" 5 10 10 0)] [] []) "A" 5 12 1 true
      (by norm_num) (by norm_num) (by norm_num) (by unfold PositionsPos; decide)
  · exact nonnegative_cash.2.2.1 (Portfolio.make 100 (1/1000)) "A" 2 0
      (by norm_num [Portfolio.make])
  · exact nonnegative_cash.2.2.2.1 (Portfolio.make 100 (1/1000)) "A" 7
  · exact nonnegative_cash.2.2.2.2.1 (Portfolio.make 100 (1/1000)) 0
  · exact nonnegative_cash.2.2.2.2.2 (Portfolio.make 50 (1/1000)) "A" 1 1000 0
      (by norm_num)
      (by norm_num [Portfolio.make, Portfolio.calculateCommission])

/-- C4: zero-quantity positions never exist — every ledger operation
preserves the invariant that each stored position has quantity > 0, and
selling exactly the held quantity of a ticker removes it from the holdings
map entirely, so a subsequent `get_position` returns `none`. -/
theorem zero_quantity_positions_never_exist :
    (∀ (p : Portfolio) (t : String) (q : ℤ) (pr : ℚ) (d : ℕ),
      PositionsPos p → PositionsPos ((p.buy t q pr d).1)) ∧
    (∀ (p : Portfolio) (t : String) (q : ℤ) (pr : ℚ) (d : ℕ) (ap : Bool),
      PositionsPos p → PositionsPos ((p.sell t q pr d ap).1)) ∧
    (∀ (p : Portfolio) (t : String) (pr : ℚ),
      PositionsPos p → PositionsPos (p.update_price t pr)) ∧
    (∀ (p : Portfolio) (t : String) (dv : ℚ) (d : ℕ),
      PositionsPos p → PositionsPos (p.receive_dividend t dv d)) ∧
    (∀ (p : Portfolio) (d : ℕ), PositionsPos p → PositionsPos (p.snapshot d)) ∧
    (∀ (p : Portfolio) (t : String) (pos : Position) (pr : ℚ) (d : ℕ) (ap : Bool),
      p.get_position t = some pos → 0 < pos.quantity →
      (p.sell t pos.quantity pr d ap).2 = none ∧
      ((p.sell t pos.quantity pr d ap).1).get_position t = none) := by
  refine ⟨positionsPos_buy, positionsPos_sell, positionsPos_update_price, ?_, ?_,
    sell_all_removes⟩
  · intro p t dv d hp
    unfold PositionsPos
    rw [receive_dividend_positions]
    exact hp
  · intro p d hp
    exact hp

/-- Witness for C4 at a concrete ledger holding 5 shares: the invariant holds
after a buy, a sell, a price update, a dividend and a snapshot, and selling
exactly the 5 held shares removes the position. -/
theorem zero_quantity_positions_never_exist_witness :
    PositionsPos (((Portfolio.mk 1000 0 1000 [("A", Position.mk "A" 5 10 10 0)] [] []).buy
      "A" 2 10 1).1) ∧
    PositionsPos (((Portfolio.mk 1000 0 1000 [("A", Position.mk "A" 5 10 10 0)] [] []).sell
      "A" 2 10 1 true).1) ∧
    ((Portfolio.mk 1000 0 1000 [("A", Position.mk "A" 5 10 10 0)] [] []).sell
      "A" 5 10 1 true).1.get_position "A" = none := by
  have hp : PositionsPos (Portfolio.mk 1000 0 1000 [("A", Position.mk "A" 5 10 10 0)] [] []) := by
    unfold PositionsPos; decide
  refine ⟨?_, ?_, ?_⟩
  · exact zero_quantity_positions_never_exist.1 _ "A" 2 10 1 hp
  · exact zero_quantity_positions_never_exist.2.1 _ "A" 2 10 1 true hp
  · exact (zero_quantity_positions_never_exist.2.2.2.2.2 _ "A" (Position.mk "A" 5 10 10 0)
      10 1 true (by decide) (by decide)).2

/-- C5: sell validation and permissive clamping — in the default permissive
mode a sell raises `InvalidOrderError` exactly when the ticker is not held or
the quantity is non-positive; a permissive over-sized request executes as a
sell of exactly the held quantity (crediting `amount − commission` for the
clamped quantity and appending one SELL trade); in strict mode the same
over-sized request raises `InvalidOrderError`. -/
theorem sell_validation_and_clamping :
    (∀ (p : Portfolio) (t : String) (q : ℤ) (pr : ℚ) (d : ℕ),
      (p.sell t q pr d true).2 =
        (if p.get_position t = none then some (PyErr.invalidOrder notHeldMsg)
         else if q ≤ 0 then some (PyErr.invalidOrder invalidQtyMsg)
         else none)) ∧
    (∀ (p : Portfolio) (t : String) (q : ℤ) (pr : ℚ) (d : ℕ) (pos : Position),
      p.get_position t = some pos → 0 < pos.quantity → pos.quantity < q →
      (p.sell t q pr d true).2 = none ∧
      ((p.sell t q pr d true).1).cash =
        p.cash + ((pos.quantity : ℚ) * pr - p.calculateCommission ((pos.quantity : ℚ) * pr)) ∧
      ((p.sell t q pr d true).1).trades = p.trades ++
        [Trade.mk d t "SELL" pos.quantity pr
          (p.calculateCommission ((pos.quantity : ℚ) * pr)) ((pos.quantity : ℚ) * pr)]) ∧
    (∀ (p : Portfolio) (t : String) (q : ℤ) (pr : ℚ) (d : ℕ) (pos : Position),
      p.get_position t = some pos → 0 < pos.quantity → pos.quantity < q →
      p.sell t q pr d false = (p, some (PyErr.invalidOrder insufficientQtyMsg))) := by
  refine ⟨?_, ?_, ?_⟩
  · intro p t q pr d
    unfold Portfolio.sell Portfolio.get_position
    cases hl : posLookup p.positions t with
    | none => simp
    | some pos =>
      dsimp only
      rw [if_neg (Option.some_ne_none pos)]
      by_cases hq : q ≤ 0
      · rw [if_pos hq, if_pos hq]
      · rw [if_neg hq, if_neg hq, if_neg (by simp)]
  · intro p t q pr d pos hl hpos hover
    unfold Portfolio.get_position at hl
    unfold Portfolio.sell
    rw [hl]
    dsimp only
    rw [if_neg (by omega), if_neg (by simp)]
    have hmin : min q pos.quantity = pos.quantity := min_eq_right (le_of_lt hover)
    refine ⟨rfl, ?_, ?_⟩
    · show (p.applySellFill t pos (min q pos.quantity) pr d).cash = _
      rw [hmin, applySellFill_cash]
    · show (p.applySellFill t pos (min q pos.quantity) pr d).trades = _
      rw [hmin, applySellFill_trades]
  · intro p t q pr d pos hl hpos hover
    unfold Portfolio.get_position at hl
    unfold Portfolio.sell
    rw [hl]
    dsimp only
    rw [if_neg (by omega), if_pos ⟨hover, rfl⟩]

/-- Witness for C5 on a ledger holding 5 shares at price 10: the permissive
no-error equivalence at a valid request, the clamped execution of an
over-sized request for 99 shares (selling exactly 5), and the strict-mode
rejection of the same request. -/
theorem sell_validation_and_clamping_witness :
    (Portfolio.sell (Portfolio.mk 1000 0 1000 [("A", Position.mk "A" 5 10 10 0)] [] [])
      "A" 2 10 1 true).2 = none ∧
    ((Portfolio.sell (Portfolio.mk 1000 0 1000 [("A", Position.mk "A" 5 10 10 0)] [] [])
      "A" 99 10 1 true).1).cash = 1000 + (5 * 10 - 0) ∧
    Portfolio.sell (Portfolio.mk 1000 0 1000 [("A", Position.mk "A" 5 10 10 0)] [] [])
      "A" 99 10 1 false =
      (Portfolio.mk 1000 0 1000 [("A", Position.mk "A" 5 10 10 0)] [] [],
        some (PyErr.invalidOrder insufficientQtyMsg)) := by
  refine ⟨?_, ?_, ?_⟩
  · rw [sell_validation_and_clamping.1 _ "A" 2 10 1]
    norm_num +decide [Portfolio.get_position, posLookup]
  · have h := (sell_validation_and_clamping.2.1 (Portfolio.mk 1000 0 1000
      [("A", Position.mk "A" 5 10 10 0)] [] []) "A" 99 10 1 (Position.mk "A" 5 10 10 0)
      (by norm_num +decide [Portfolio.get_position, posLookup]) (by norm_num) (by norm_num)).2.1
    rw [h]
    norm_num [Portfolio.calculateCommission]
  · exact sell_validation_and_clamping.2.2 (Portfolio.mk 1000 0 1000
      [("A", Position.mk "A" 5 10 10 0)] [] []) "A" 99 10 1 (Position.mk "A" 5 10 10 0)
      (by norm_num +decide [Portfolio.get_position, posLookup]) (by norm_num) (by norm_num)

/-- C7: banding idempotence — with positive portfolio value, when the current
allocation fraction (the value the code checks: stock quantity × price for the
stock sleeve, the passed `current_stock_value` for the bond sleeve) is within
strictly less than `band_threshold` of the target `stock_pct`, the
banding-check signal 3 produces a zero order delta. -/
theorem banding_idempotence (s : ShannonStrategy) (portfolio_value price : ℚ)
    (current_quantity : ℤ) (cash current_bond_value commission_rate : ℚ)
    (ticker : Option String) (current_stock_value : ℚ)
    (hpv : 0 < portfolio_value)
    (hband : |(if s.isStockTicker ticker then (current_quantity : ℚ) * price
        else current_stock_value) / portfolio_value - s.stock_pct| < s.band_threshold) :
    s.calculate_position_size portfolio_value price 3 current_quantity cash
      current_bond_value commission_rate ticker current_stock_value = 0 := by
  have hcheck : ∀ v : ℚ, |v / portfolio_value - s.stock_pct| < s.band_threshold →
      s.check_banding_rebalance portfolio_value v = false := by
    intro v hv
    unfold ShannonStrategy.check_banding_rebalance
    rw [if_neg (ne_of_gt hpv)]
    simpa [decide_eq_false_iff_not, not_le] using hv
  unfold ShannonStrategy.calculate_position_size
  rw [if_neg (by norm_num)]
  by_cases hstock : s.isStockTicker ticker
  · rw [if_pos hstock]
    unfold ShannonStrategy.sizeFromTarget
    rw [if_neg (by norm_num), if_neg (by norm_num), if_pos rfl,
      hcheck _ (by simpa [hstock] using hband)]
    simp
  · rw [if_neg hstock]
    by_cases hub : s.use_bond = false
    · rw [if_pos hub]
    · rw [if_neg hub]
      unfold ShannonStrategy.sizeFromTarget
      rw [if_neg (by norm_num), if_neg (by norm_num), if_pos rfl,
        hcheck _ (by simpa [hstock] using hband)]
      simp

/-- Witness for C7: a Shannon strategy targeting 50% with a 10% band, a
portfolio worth 1000 holding 51 stock shares at price 10 (allocation 51%,
drift 1% < 10%), produces a zero delta on signal 3. -/
theorem banding_idempotence_witness :
    ShannonStrategy.calculate_position_size
      (ShannonStrategy.mk (1/2) (some "A") none (1/10)) 1000 10 3 51 490 490 (1/1000)
      (some "A") 0 = 0 := by
  refine banding_idempotence _ 1000 10 51 490 490 (1/1000) (some "A") 0 (by norm_num) ?_
  norm_num +decide [ShannonStrategy.isStockTicker, abs_eq_max_neg]

/-- The engine used against claim C9: price data is attached but no strategy
(`set_strategy` never called). -/
def noStrategyEngine : MultiAssetBacktestEngine :=
  { strategy := none, data_dict := [("TQQQ", [(0, 10)])],
    portfolio := Portfolio.make 1000 (1/1000) }

/-- Whether a run raised the spec's `ConfigurationError`. -/
def runRaisesConfigurationError (e : MultiAssetBacktestEngine) : Bool :=
  match e.run with
  | (_, Except.error err) => err.isConfigurationError
  | _ => false

/-- C9 (counterexample): a run with no strategy attached fails, but with the
Python builtin `ValueError` — no `ConfigurationError` class exists anywhere in
the source, so the claim's named exception is wrong. -/
theorem configuration_error_counterexample :
    noStrategyEngine.run =
      (noStrategyEngine, Except.error (PyErr.valueError strategyNotSetMsg)) ∧
    runRaisesConfigurationError noStrategyEngine = false := by
  exact ⟨rfl, rfl⟩

/-- C9 (amended: the fail-fast error is a `ValueError`, not a
`ConfigurationError`): running an engine with no strategy attached, or with
no data attached, raises a `ValueError` before any simulation step — the
engine (and hence the ledger: cash, holdings, trades, equity curve) is
returned exactly as it was. -/
theorem failfast_configuration_errors (e : MultiAssetBacktestEngine)
    (h : e.strategy = none ∨ e.data_dict = []) :
    (e.run).1 = e ∧ ∃ m, (e.run).2 = Except.error (PyErr.valueError m) := by
  unfold MultiAssetBacktestEngine.run
  cases hs : e.strategy with
  | none => exact ⟨rfl, strategyNotSetMsg, rfl⟩
  | some s =>
    rcases h with h1 | h2
    · rw [hs] at h1; cases h1
    · dsimp only
      rw [if_pos h2]
      exact ⟨rfl, dataNotSetMsg, rfl⟩

/-- Witness for C9: the concrete strategy-less engine fails fast with its
state unchanged. -/
theorem failfast_configuration_errors_witness :
    (noStrategyEngine.run).1 = noStrategyEngine ∧
    ∃ m, (noStrategyEngine.run).2 = Except.error (PyErr.valueError m) :=
  failfast_configuration_errors noStrategyEngine (Or.inl rfl)

/-! ### Trade-log ordering toolkit for the engine bar -/

theorem buy_trades_sub (p : Portfolio) (t : String) (q : ℤ) (pr : ℚ) (d : ℕ) :
    ∃ l, ((p.buy t q pr d).1).trades = p.trades ++ l ∧ ∀ tr ∈ l, tr.action = "BUY" := by
  unfold Portfolio.buy
  by_cases hq : q ≤ 0
  · rw [if_pos hq]; exact ⟨[], by simp, by simp⟩
  · rw [if_neg hq]
    by_cases hc : p.cash < (q : ℚ) * pr + p.calculateCommission ((q : ℚ) * pr)
    · rw [if_pos hc]; exact ⟨[], by simp, by simp⟩
    · rw [if_neg hc]
      refine ⟨[Trade.mk d t "BUY" q pr (p.calculateCommission ((q : ℚ) * pr)) ((q : ℚ) * pr)],
        rfl, ?_⟩
      intro tr htr
      rw [List.mem_singleton] at htr
      subst htr
      rfl

theorem sell_trades_sub (p : Portfolio) (t : String) (q : ℤ) (pr : ℚ) (d : ℕ) (ap : Bool) :
    ∃ l, ((p.sell t q pr d ap).1).trades = p.trades ++ l ∧ ∀ tr ∈ l, tr.action = "SELL" := by
  unfold Portfolio.sell
  cases hl : posLookup p.positions t with
  | none => exact ⟨[], by simp, by simp⟩
  | some pos =>
    dsimp only
    by_cases hq : q ≤ 0
    · rw [if_pos hq]; exact ⟨[], by simp, by simp⟩
    · rw [if_neg hq]
      by_cases hs : pos.quantity < q ∧ ap = false
      · rw [if_pos hs]; exact ⟨[], by simp, by simp⟩
      · rw [if_neg hs]
        refine ⟨[Trade.mk d t "SELL" (min q pos.quantity) pr
          (p.calculateCommission (((min q pos.quantity : ℤ) : ℚ) * pr))
          (((min q pos.quantity : ℤ) : ℚ) * pr)], rfl, ?_⟩
        intro tr htr
        rw [List.mem_singleton] at htr
        subst htr
        rfl

theorem execSells_trades (d : ℕ) (os : List Order) :
    ∀ p : Portfolio, ∃ l, (execSells d os p).trades = p.trades ++ l ∧
      ∀ tr ∈ l, tr.action = "SELL" := by
  induction os with
  | nil => intro p; exact ⟨[], by simp [execSells], by simp⟩
  | cons o rest ih =>
    intro p
    obtain ⟨l1, h1, ha1⟩ := sell_trades_sub p o.ticker o.quantity o.price d true
    obtain ⟨l2, h2, ha2⟩ := ih ((p.sell o.ticker o.quantity o.price d true).1)
    refine ⟨l1 ++ l2, ?_, ?_⟩
    · show (execSells d rest ((p.sell o.ticker o.quantity o.price d true).1)).trades = _
      rw [h2, h1, List.append_assoc]
    · intro tr htr
      rcases List.mem_append.1 htr with h | h
      · exact ha1 tr h
      · exact ha2 tr h

theorem execBuys_trades (d : ℕ) (os : List Order) :
    ∀ p : Portfolio, ∃ l, (execBuys d os p).trades = p.trades ++ l ∧
      ∀ tr ∈ l, tr.action = "BUY" := by
  induction os with
  | nil => intro p; exact ⟨[], by simp [execBuys], by simp⟩
  | cons o rest ih =>
    intro p
    obtain ⟨l1, h1, ha1⟩ := buy_trades_sub p o.ticker o.quantity o.price d
    obtain ⟨l2, h2, ha2⟩ := ih ((p.buy o.ticker o.quantity o.price d).1)
    refine ⟨l1 ++ l2, ?_, ?_⟩
    · show (execBuys d rest ((p.buy o.ticker o.quantity o.price d).1)).trades = _
      rw [h2, h1, List.append_assoc]
    · intro tr htr
      rcases List.mem_append.1 htr with h | h
      · exact ha1 tr h
      · exact ha2 tr h

theorem shannonStockLeg_trades (s : ShannonStrategy) (cr : ℚ) (p0 : Portfolio)
    (st : String) (sp sig : ℚ) (d : ℕ) :
    ∃ l, (shannonStockLeg s cr p0 st sp sig d).trades = p0.trades ++ l ∧
      ∀ tr ∈ l, tr.action = "BUY" := by
  unfold shannonStockLeg
  split
  · exact buy_trades_sub p0 st _ sp d
  · exact ⟨[], by simp, by simp⟩

theorem shannonBondLeg_trades (s : ShannonStrategy) (cr : ℚ) (p1 : Portfolio)
    (bt : String) (bp sig csv : ℚ) (d : ℕ) :
    ∃ l, (shannonBondLeg s cr p1 bt bp sig csv d).trades = p1.trades ++ l ∧
      ∀ tr ∈ l, tr.action = "BUY" := by
  unfold shannonBondLeg
  split
  · exact buy_trades_sub p1 bt _ bp d
  · exact ⟨[], by simp, by simp⟩

theorem shannonInitialEntry_trades (s : ShannonStrategy) (cr : ℚ) (p0 : Portfolio)
    (st : String) (sp bp sig sv : ℚ) (d : ℕ) :
    ∃ l, (shannonInitialEntry s cr p0 st sp bp sig sv d).trades = p0.trades ++ l ∧
      ∀ tr ∈ l, tr.action = "BUY" := by
  unfold shannonInitialEntry
  cases s.bond_ticker with
  | none => exact shannonStockLeg_trades s cr p0 st sp sig d
  | some bt =>
    obtain ⟨l1, h1, ha1⟩ := shannonStockLeg_trades s cr p0 st sp sig d
    obtain ⟨l2, h2, ha2⟩ := shannonBondLeg_trades s cr
      (shannonStockLeg s cr p0 st sp sig d) bt bp sig (if 0 < sp then sv else 0) d
    refine ⟨l1 ++ l2, ?_, ?_⟩
    · rw [h2, h1, List.append_assoc]
    · intro tr htr
      rcases List.mem_append.1 htr with h | h
      · exact ha1 tr h
      · exact ha2 tr h

/-- The C6 reallocation-scenario strategy: 50% TQQQ / 50% SGOV, 10% band. -/
def reallocStrategy : ShannonStrategy :=
  ShannonStrategy.mk (1/2) (some "TQQQ") (some "SGOV") (1/10)

/-- The C6 reallocation-scenario ledger (zero commission for readability):
100 TQQQ at price 20 (value 2000), 50 SGOV at price 10 (value 500), and only
5 in cash — rebalancing to 50/50 must sell TQQQ and buy SGOV with the
proceeds. -/
def reallocPortfolio : Portfolio :=
  Portfolio.mk 2505 0 5
    [("TQQQ", Position.mk "TQQQ" 100 20 20 0), ("SGOV", Position.mk "SGOV" 50 10 10 0)] [] []

/-- C6: sell-before-buy execution order — on every Shannon rebalancing bar
the trade log grows by a block of SELL trades followed by a block of BUY
trades (never interleaved), and in the concrete reallocation scenario the
SGOV buy (cost 500) succeeds although pre-sell cash is only 5, because the
TQQQ sell (proceeds 760) executes first. -/
theorem sell_before_buy_ordering :
    (∀ (s : ShannonStrategy) (cr : ℚ) (p0 : Portfolio) (sp bp sig : ℚ) (d : ℕ),
      ∃ ls lb, (shannonBarStep s cr p0 sp bp sig d).trades = p0.trades ++ ls ++ lb ∧
        ls.all (fun tr => tr.action == "SELL") = true ∧
        lb.all (fun tr => tr.action == "BUY") = true) ∧
    (reallocPortfolio.cash < 50 * 10 ∧
      (shannonBarStep reallocStrategy 0 reallocPortfolio 20 10 3 1).cash = 265 ∧
      ((shannonBarStep reallocStrategy 0 reallocPortfolio 20 10 3 1).get_position "SGOV").map
        Position.quantity = some 100 ∧
      (shannonBarStep reallocStrategy 0 reallocPortfolio 20 10 3 1).trades.map Trade.action =
        ["SELL", "BUY"]) := by
  constructor
  · intro s cr p0 sp bp sig d
    unfold shannonBarStep
    cases hst : s.stock_ticker with
    | none => exact ⟨[], [], by simp, by simp, by simp⟩
    | some st =>
      dsimp only
      split
      · obtain ⟨l, hl, ha⟩ := shannonInitialEntry_trades s cr p0 st sp bp sig _ d
        refine ⟨[], l, by simpa using hl, by simp, ?_⟩
        rw [List.all_eq_true]
        intro tr htr
        simpa using ha tr htr
      · obtain ⟨ls, hls, has⟩ := execSells_trades d _ p0
        obtain ⟨lb, hlb, hab⟩ := execBuys_trades d _ (execSells d _ p0)
        refine ⟨ls, lb, ?_, ?_, ?_⟩
        · rw [hlb, hls, List.append_assoc]
        · rw [List.all_eq_true]
          intro tr htr
          simpa using has tr htr
        · rw [List.all_eq_true]
          intro tr htr
          simpa using hab tr htr
  · norm_num +decide [reallocPortfolio, reallocStrategy, shannonBarStep, shannonCollect,
      shannonInitialEntry, shannonStockLeg, shannonBondLeg,
      ShannonStrategy.calculate_position_size, ShannonStrategy.sizeFromTarget,
      ShannonStrategy.clampBuyDelta, ShannonStrategy.check_banding_rebalance,
      ShannonStrategy.isStockTicker, ShannonStrategy.use_bond, pyInt,
      execSells, execBuys, Portfolio.sell, Portfolio.buy, Portfolio.applySellFill,
      Portfolio.applyBuyFill, buyPositions, sellPositions, Portfolio.calculateCommission,
      Portfolio.get_position, Portfolio.total_value, Portfolio.total_market_value,
      Position.market_value, posLookup, posReplace, posRemove, abs_eq_max_neg]

end AutoTrading
